import Mathlib

/-!
Verification development for the TrustLogix / Atlan access-analyzer sync engine.

The definitions below are a shallow embedding of the reconciliation engine in
`src/atlan_service.py` and the risk summarizer in `src/trustlogix.py`:

* Python strings are `String` / `List Char`; Python sets are lists used up to
  membership; Python dicts (insertion ordered) are association lists.
* The remote catalog is an oracle `Oracle : RCall → CallOutcome` answering each
  outbound request; every engine operation returns its successor state together
  with the list of remote calls it issued.
* Machine-level niceties (timeouts, sleeping, logging) are dropped; the
  status-code classification and retry loop of `_request` are kept.
-/

/-! ### Generic string helpers (Python `in`, `lower`, `upper`) -/

/-- `listStartsWith needle hay`: does `hay` start with `needle`?  Mirrors the
prefix comparison underlying Python's substring scan. -/
def listStartsWith : List Char → List Char → Bool
  | [], _ => true
  | _ :: _, [] => false
  | n :: ns, h :: hs => n == h && listStartsWith ns hs

/-- `listContainsSub hay needle`: Python's `needle in hay` substring test. -/
def listContainsSub : List Char → List Char → Bool
  | [], needle => needle.isEmpty
  | h :: hs, needle => listStartsWith needle (h :: hs) || listContainsSub hs needle

/-- Python `needle in hay` on strings. -/
def strContains (hay needle : String) : Bool :=
  listContainsSub hay.toList needle.toList

/-- Python `str.lower()` (ASCII; the engine only matches ASCII keywords). -/
def lowerStr (s : String) : String :=
  ⟨s.toList.map Char.toLower⟩

/-! ### `_make_tag_id` (atlan_service.py lines 806-809)

`re.sub(r'[^A-Za-z0-9]+', '_', category_name).strip('_').upper()` prefixed with
`TLX_`.  `collapseNA b cs` replaces each maximal run of non-alphanumeric
characters by a single `'_'`; the flag `b` records whether the previous
character belonged to such a run. -/

def collapseNA : Bool → List Char → List Char
  | _, [] => []
  | prevSep, c :: rest =>
    if c.isAlphanum then c :: collapseNA false rest
    else if prevSep then collapseNA prevSep rest
    else '_' :: collapseNA true rest

/-- Python `str.strip('_')`: drop leading underscores. -/
def stripL (l : List Char) : List Char := l.dropWhile (· == '_')

/-- Python `str.strip('_')`: drop trailing underscores. -/
def stripR (l : List Char) : List Char := ((l.reverse).dropWhile (· == '_')).reverse

/-- Python `str.strip('_')`. -/
def stripAll (l : List Char) : List Char := stripR (stripL l)

/-- The characters of `_make_tag_id name` (sub, strip, upper, prefix). -/
def tagIdChars (name : List Char) : List Char :=
  "TLX_".toList ++ (stripAll (collapseNA false name)).map Char.toUpper

/-- `AtlanClient._make_tag_id`. -/
def _make_tag_id (category_name : String) : String :=
  ⟨tagIdChars category_name.toList⟩

/-- The maximal alphanumeric runs of a string (specification-side device used
to characterise `_make_tag_id`). -/
def alnumRuns : List Char → List (List Char)
  | [] => []
  | c :: rest =>
    let rs := alnumRuns rest
    if c.isAlphanum then
      match rest.head? with
      | some d =>
        if d.isAlphanum then
          match rs with
          | r :: tl => (c :: r) :: tl
          | [] => [[c]]
        else [c] :: rs
      | none => [[c]]
    else rs

/-- Join character runs with single underscores. -/
def joinUnders : List (List Char) → List Char
  | [] => []
  | [r] => r
  | r :: rs => r ++ '_' :: joinUnders rs

/-- The case-folded alphanumeric runs of a string: two category names with the
same folded runs differ only in case, in the punctuation used as separators and
in leading or trailing punctuation. -/
def foldedRuns (s : String) : List (List Char) :=
  (alnumRuns s.toList).map (List.map Char.toUpper)

/-- Erase all non-alphanumeric characters and case-fold: the literal reading of
two names "differing only by case or punctuation" (specification-side device). -/
def stripPunctFold (s : String) : List Char :=
  (s.toList.filter Char.isAlphanum).map Char.toLower

/-! ### `_summarize` (trustlogix.py lines 301-320) -/

/-- A single risk finding as consumed by `_summarize`. -/
structure RiskFinding where
  severity : String
  category : String
deriving DecidableEq, Repr

/-- The aggregate risk summary (`summary` dict of `_summarize`).  Categories
keep dict insertion order as an association list. -/
structure RiskSummary where
  total : Nat
  high : Nat
  medium : Nat
  low : Nat
  categories : List (String × Nat)
deriving DecidableEq, Repr

/-- `"HIGH" in sev or "CRITICAL" in sev`. -/
def sevIsHigh (sev : String) : Bool :=
  strContains sev "HIGH" || strContains sev "CRITICAL"

/-- `"MEDIUM" in sev`. -/
def sevIsMedium (sev : String) : Bool :=
  strContains sev "MEDIUM"

/-- `summary['categories'][cat] = summary['categories'].get(cat, 0) + 1`. -/
def bumpCategory (cats : List (String × Nat)) (c : String) : List (String × Nat) :=
  if cats.any (fun kv => kv.1 == c) then
    cats.map (fun kv => if kv.1 == c then (kv.1, kv.2 + 1) else kv)
  else cats ++ [(c, 1)]

/-- The body of `_summarize`'s loop. -/
def sumStep (s : RiskSummary) (r : RiskFinding) : RiskSummary :=
  let s1 :=
    if sevIsHigh r.severity then { s with high := s.high + 1 }
    else if sevIsMedium r.severity then { s with medium := s.medium + 1 }
    else { s with low := s.low + 1 }
  { s1 with categories := bumpCategory s1.categories r.category }

/-- `TrustLogixClient._summarize`. -/
def _summarize (risks : List RiskFinding) : RiskSummary :=
  risks.foldl sumStep ⟨risks.length, 0, 0, 0, []⟩

/-! ### Domain resolution (atlan_service.py lines 784-794)

`_domain_guid_map` is a GUID-keyed dict built in insertion order; entries are
`(guid, displayName, qualifiedName)`. -/

/-- `self._domain_guid_map.get(guid)`. -/
def lookupGuid (m : List (String × String × String)) (g : String) :
    Option (String × String) :=
  (m.find? (fun e => e.1 == g)).map (fun e => e.2)

/-- The `for guid in domain_guids` loop of `_resolve_domain_from_guids`. -/
def resolveLoop (m : List (String × String × String)) : List String → String
  | [] => "Unassigned"
  | g :: rest =>
    match lookupGuid m g with
    | some info => info.1
    | none => resolveLoop m rest

/-- `AtlanClient._resolve_domain_from_guids` (the list-argument case; the
`isinstance(domain_guids, str)` branch merely wraps a single string). -/
def _resolve_domain_from_guids (m : List (String × String × String))
    (domain_guids : List String) : String :=
  if domain_guids.isEmpty then "Unassigned"
  else resolveLoop m domain_guids

/-- Specification-side definition, following the spec's words for claim C7:
return the display name of whichever given GUID appears first **in the index**,
else the sentinel. -/
def resolveDomainSpecIndexOrder (m : List (String × String × String))
    (guids : List String) : String :=
  match m.find? (fun e => guids.contains e.1) with
  | some e => e.2.1
  | none => "Unassigned"

/-! ### The resilient request client (atlan_service.py lines 98-161)

`_request` is modelled over the list of HTTP status codes the remote returns,
one per retry attempt (`_MAX_RETRIES = 3`).  Only the consecutive-403 counter
and the success flag are observable to the engine.  Connection errors behave
like a retried-then-exhausted attempt and are not modelled separately. -/

/-- What a single `_request` invocation observed. -/
inductive ReqRes
  | got403
  | gotSuccess
  | gotFailure
deriving DecidableEq, Repr

/-- The retry loop of `_request` (status classification in source order:
403; 400/404/409; 429; >= 500; `raise_for_status`; 2xx/3xx success). -/
def requestLoop : Nat → List Nat → ReqRes
  | 0, _ => ReqRes.gotFailure
  | _ + 1, [] => ReqRes.gotFailure
  | fuel + 1, code :: rest =>
    if code == 403 then ReqRes.got403
    else if code == 400 || code == 404 || code == 409 then ReqRes.gotFailure
    else if code == 429 then requestLoop fuel rest
    else if 500 ≤ code then requestLoop fuel rest
    else if 400 ≤ code then ReqRes.gotFailure
    else ReqRes.gotSuccess

/-- `_MAX_RETRIES`. -/
def _MAX_RETRIES : Nat := 3

/-- `AtlanClient._request`, restricted to its observable effect: the updated
consecutive-403 counter and whether a (non-`None`) response was returned. -/
def _request (consecutive403 : Nat) (codes : List Nat) : Nat × Bool :=
  match requestLoop _MAX_RETRIES codes with
  | ReqRes.got403 => (consecutive403 + 1, false)
  | ReqRes.gotSuccess => (0, true)
  | ReqRes.gotFailure => (consecutive403, false)

/-- `_ABORT_THRESHOLD`. -/
def _ABORT_THRESHOLD : Nat := 3

/-- `AtlanClient._should_abort`. -/
def _should_abort (consecutive403 : Nat) : Bool :=
  _ABORT_THRESHOLD ≤ consecutive403

/-! ### The remote oracle

Higher-level operations are modelled against an oracle answering each remote
call.  A call either succeeds with some payload, fails with a 403 (counter
increments), or fails for any other reason (counter unchanged) — exactly the
three observable outcomes of `_request`. -/

/-- An attribute value written to business metadata (`int` or `string`). -/
inductive AttrVal
  | intV (n : Nat)
  | strV (s : String)
deriving DecidableEq, Repr

/-- A classification typedef as returned by the catalog. -/
structure CDef where
  name : String
  displayName : String
deriving DecidableEq, Repr

/-- The remote calls issued by the modelled operations. -/
inductive RCall
  | getTypedefs (kind : String)
  | createTagDef (name displayName color : String)
  | getEntity (guid : String)
  | removeClassification (guid tag : String)
  | addClassifications (guid : String) (tags : List String)
  | writeBM (guid cm : String) (values : List (String × AttrVal))
  | postEntity (guid typeName name qualifiedName annType annTitle annMessage : String)
deriving DecidableEq, Repr

/-- Payload of a successful call, as interpreted by the engine. -/
inductive RData
  | ok
  | typedefs (defs : List CDef)
  | entity (classifications : List String)
deriving DecidableEq, Repr

/-- Outcome of one remote call. -/
inductive CallOutcome
  | success (d : RData)
  | fail403
  | failOther
deriving DecidableEq, Repr

/-- The remote catalog, as an oracle answering each call. -/
def Oracle : Type := RCall → CallOutcome

/-- Effect of one call's outcome on the consecutive-403 counter
(matches `_request`: 403 increments, success resets, anything else is
invisible). -/
def stepCounter (c : Nat) : CallOutcome → Nat
  | CallOutcome.success _ => 0
  | CallOutcome.fail403 => c + 1
  | CallOutcome.failOther => c

/-- Did the call return a non-`None` result? -/
def isSuccess : CallOutcome → Bool
  | CallOutcome.success _ => true
  | _ => false

/-- Bridge from `_request`'s observation to the oracle-level outcome. -/
def outcomeOfReq : ReqRes → CallOutcome
  | ReqRes.got403 => CallOutcome.fail403
  | ReqRes.gotSuccess => CallOutcome.success RData.ok
  | ReqRes.gotFailure => CallOutcome.failOther

/-! ### Engine state (the mutable fields of `AtlanClient`)

Python sets are modelled as lists used up to membership (`List.insert` is
exactly `set.add`: the element is prepended unless already present); the
engine's behaviour never depends on set iteration order. -/

/-- The sync-relevant mutable state of an `AtlanClient` instance. -/
structure EngineState where
  /-- `_cm_internal_name`. -/
  cm : Option String
  /-- `_attr_names`: simple key → hashed internal attribute name. -/
  attrNames : List (String × String)
  /-- `_created_tags` (a set: used up to membership). -/
  createdTags : List String
  /-- `_tlx_tag_names`, the TLX tag registry (a set: used up to membership). -/
  tlxTagNames : List String
  /-- `_consecutive_403`. -/
  consecutive403 : Nat
  /-- `_domain_guid_map` (insertion ordered). -/
  domainGuidMap : List (String × String × String)
deriving DecidableEq

/-- Python `dict.get` over an association list with distinct keys. -/
def lookupAssoc (l : List (String × String)) (k : String) : Option String :=
  (l.find? (fun kv => kv.1 == k)).map (fun kv => kv.2)

/-! ### Tag synchronisation (atlan_service.py lines 882-924) -/

/-- The loop intersecting an asset's classifications with the registry:
`for c in classifications: if c.typeName in self._tlx_tag_names:
current_tlx.add(...)` — a set, hence deduplicated. -/
def current_tlx_of (registry : List String) (classifications : List String) :
    List String :=
  (classifications.filter (fun t => decide (t ∈ registry))).dedup

/-- The classification list obtained from a `getEntity` answer (a failed or
malformed read collects no classifications). -/
def readClassifications : CallOutcome → List String
  | CallOutcome.success (RData.entity cls) => cls
  | _ => []

/-- The `current_tlx` set a `_sync_tags_on_asset` run computes. -/
def syncCurrent (ora : Oracle) (st : EngineState) (guid : String) : List String :=
  current_tlx_of st.tlxTagNames (readClassifications (ora (RCall.getEntity guid)))

/-- `to_remove = current_tlx - desired_tag_names`. -/
def setDiff (a b : List String) : List String :=
  a.filter (fun t => decide (t ∉ b))

/-- `AtlanClient._sync_tags_on_asset`: read current classifications, remove
the stale TLX tags one call each, add the missing ones in one batched call. -/
def _sync_tags_on_asset (ora : Oracle) (st : EngineState) (guid : String)
    (desired_tag_names : List String) : EngineState × List RCall :=
  let o := ora (RCall.getEntity guid)
  let c1 := stepCounter st.consecutive403 o
  let current_tlx := syncCurrent ora st guid
  let to_remove := setDiff current_tlx desired_tag_names
  let remCalls := to_remove.map (fun t => RCall.removeClassification guid t)
  let c2 := to_remove.foldl
    (fun c t => stepCounter c (ora (RCall.removeClassification guid t))) c1
  let to_add := setDiff desired_tag_names current_tlx
  if to_add.isEmpty then
    ({ st with consecutive403 := c2 }, RCall.getEntity guid :: remCalls)
  else
    ({ st with consecutive403 := stepCounter c2 (ora (RCall.addClassifications guid to_add)) },
      RCall.getEntity guid :: remCalls ++ [RCall.addClassifications guid to_add])

/-- A call that mutates the remote catalog (everything except the reads). -/
def isMutating : RCall → Bool
  | RCall.getTypedefs _ => false
  | RCall.getEntity _ => false
  | _ => true

/-- The asset's classification list after the removal and addition calls of a
`_sync_tags_on_asset` pass (with registry `registry`, previous classification
list `cls` and desired set `desired`) have been applied by the catalog. -/
def afterSync (registry : List String) (cls : List String)
    (desired : List String) : List String :=
  cls.filter (fun t => decide (t ∉ setDiff (current_tlx_of registry cls) desired)) ++
    setDiff desired (current_tlx_of registry cls)

/-! ### Dynamic tag management (atlan_service.py lines 832-880) -/

/-- Keywords mapping a category name to the red tag color. -/
def RED_KEYWORDS : List String := ["critical", "exfiltrat", "breach", "shadow", "high"]

/-- Register a tag identifier in `_created_tags` and `_tlx_tag_names`. -/
def registerTag (nm : String) (st : EngineState) : EngineState :=
  { st with createdTags := st.createdTags.insert nm,
            tlxTagNames := st.tlxTagNames.insert nm }

/-- The remote-lookup step of `ensure_dynamic_tag`: the `name` of the first
classification def matching the derived id or the display name, if the
typedef read succeeded and one matches. -/
def foundTagName (o : CallOutcome) (tag_id category_name : String) : Option String :=
  match o with
  | CallOutcome.success (RData.typedefs defs) =>
    (defs.find? (fun d => d.name == tag_id || d.displayName == category_name)).map
      (fun d => d.name)
  | _ => none

/-- `result.get("classificationDefs", [])[0].get("name", ...)` when the
creation call succeeded and returned a non-empty def list. -/
def createdName : CallOutcome → Option String
  | CallOutcome.success (RData.typedefs (c :: _)) => some c.name
  | _ => none

/-- `AtlanClient.ensure_dynamic_tag`: short-circuit on the created-tags cache,
else look the tag up remotely (by hashed name or display name), else create it;
every outcome — including a failed creation — registers an identifier in both
`_created_tags` and `_tlx_tag_names` and returns it. -/
def ensure_dynamic_tag (ora : Oracle) (st : EngineState) (category_name : String) :
    EngineState × List RCall × String :=
  let tag_id := _make_tag_id category_name
  if tag_id ∈ st.createdTags then (st, [], tag_id)
  else
    let o := ora (RCall.getTypedefs "classification")
    let st1 := { st with consecutive403 := stepCounter st.consecutive403 o }
    match foundTagName o tag_id category_name with
    | some actual =>
      (registerTag actual st1, [RCall.getTypedefs "classification"], actual)
    | none =>
      let color :=
        if RED_KEYWORDS.any (fun kw => strContains (lowerStr category_name) kw)
        then "Red" else "Orange"
      let o2 := ora (RCall.createTagDef tag_id category_name color)
      let st2 := { st1 with consecutive403 := stepCounter st1.consecutive403 o2 }
      let actual := (createdName o2).getD tag_id
      (registerTag actual st2,
        [RCall.getTypedefs "classification", RCall.createTagDef tag_id category_name color],
        actual)

/-- The category name `ensure_rollup_tag` selects from a summary. -/
def rollupCategory (summary : RiskSummary) : String :=
  if summary.high > 0 then "TrustLogix High Risk"
  else if summary.total > 0 then "TrustLogix Risks Detected"
  else "TrustLogix Data Access Governance Verified"

/-- `AtlanClient.ensure_rollup_tag`. -/
def ensure_rollup_tag (ora : Oracle) (st : EngineState) (summary : RiskSummary) :
    EngineState × List RCall × String :=
  if summary.high > 0 then ensure_dynamic_tag ora st "TrustLogix High Risk"
  else if summary.total > 0 then ensure_dynamic_tag ora st "TrustLogix Risks Detected"
  else ensure_dynamic_tag ora st "TrustLogix Data Access Governance Verified"

/-! ### Asset update (atlan_service.py lines 1020-1172) -/

/-- `ATTR_DEFS`, restricted to the fields the updater consults:
simple key and display name (in dict order). -/
def ATTR_DEFS : List (String × String) :=
  [("total_risks", "Total Risks"),
   ("high_severity", "High Severity"),
   ("medium_severity", "Medium Severity"),
   ("low_severity", "Low Severity"),
   ("risk_categories", "Risk Categories"),
   ("last_scanned", "Last Scanned"),
   ("scan_status", "Scan Status"),
   ("risk_details", "Risk Details")]

/-- `REQUIRED_ATTRS = list(ATTR_DEFS.keys())`. -/
def REQUIRED_ATTRS : List String := ATTR_DEFS.map Prod.fst

/-- The `attr_data` dict of `update_asset` (the current timestamp is a
parameter `now`). -/
def attrData (summary : RiskSummary) (now : String) : List (String × AttrVal) :=
  let total := summary.total
  let high := summary.high
  let medium := summary.medium
  let low := summary.low
  let cats := summary.categories
  let pl := if total != 1 then "s" else ""
  let risk_text :=
    if total > 0 then
      let cat_lines := (cats.filter (fun kv => kv.2 > 0)).map (fun kv => s!"{kv.1}: {kv.2}")
      if cat_lines.isEmpty then "Risks detected"
      else String.intercalate "\n" cat_lines
    else "No risks detected. TrustLogix data access governance verified."
  let scan_status :=
    if total > 0 then
      if high > 0 then s!"⚠ {high} High | {medium} Med | {low} Low"
      else s!"{total} Risk{pl} Found"
    else "✓ TrustLogix Data Access Governance Verified"
  let categories_text :=
    if cats.isEmpty then "None"
    else String.intercalate ", " (cats.map Prod.fst)
  [("total_risks", AttrVal.intV total),
   ("high_severity", AttrVal.intV high),
   ("medium_severity", AttrVal.intV medium),
   ("low_severity", AttrVal.intV low),
   ("risk_categories", AttrVal.strV categories_text),
   ("last_scanned", AttrVal.strV now),
   ("scan_status", AttrVal.strV scan_status),
   ("risk_details", AttrVal.strV risk_text)]

/-- The `bm_values` dict of `update_asset`: only the attributes whose simple
key resolved to a hashed internal name are kept. -/
def bmValues (attrNames : List (String × String)) (summary : RiskSummary)
    (now : String) : List (String × AttrVal) :=
  (attrData summary now).filterMap
    (fun kv => (lookupAssoc attrNames kv.1).map (fun hashed => (hashed, kv.2)))

/-- `AtlanClient._set_announcement`: skip silently without name or qualified
name, else post a banner whose tier and text follow the severity thresholds. -/
def _set_announcement (ora : Oracle) (st : EngineState) (guid : String)
    (summary : RiskSummary) (timestamp type_name asset_name qualified_name : String) :
    EngineState × List RCall :=
  if qualified_name = "" ∨ asset_name = "" then (st, [])
  else
    let total := summary.total
    let high := summary.high
    let medium := summary.medium
    let low := summary.low
    let cats := summary.categories
    let catLine :=
      if cats.isEmpty then []
      else ["Categories: " ++
        String.intercalate ", " ((cats.filter (fun kv => kv.2 > 0)).map
          (fun kv => s!"{kv.1} ({kv.2})"))]
    let lastLine := s!"Last scanned: {timestamp}"
    let res :=
      if high > 0 then
        let plh := if high != 1 then "s" else ""
        let plt := if total != 1 then "s" else ""
        ("issue", s!"TrustLogix: {high} High Severity Risk{plh} Detected",
          String.intercalate "\n"
            ([s!"⚠ {total} total risk{plt}: {high} high, {medium} medium, {low} low"] ++
              catLine ++ [lastLine]))
      else if total > 0 then
        let plt := if total != 1 then "s" else ""
        ("warning", s!"TrustLogix: {total} Risk{plt} Detected",
          String.intercalate "\n"
            ([s!"{medium} medium, {low} low severity"] ++ catLine ++ [lastLine]))
      else
        ("information", "TrustLogix: Data Access Governance Verified",
          s!"No security risks detected. Data access governance verified. Last scanned: {timestamp}")
    let call := RCall.postEntity guid type_name asset_name qualified_name
      res.1 res.2.1 res.2.2
    ({ st with consecutive403 := stepCounter st.consecutive403 (ora call) }, [call])

/-- The per-category tag-ensuring loop of `update_asset`
(`for cat, count in cats.items(): if count > 0: ...`). -/
def ensureCategoryTags (ora : Oracle) :
    EngineState × List RCall × List String → List (String × Nat) →
    EngineState × List RCall × List String
  | acc, [] => acc
  | acc, kv :: rest =>
    if kv.2 > 0 then
      let r := ensure_dynamic_tag ora acc.1 kv.1
      let desired := if r.2.2 ≠ "" then acc.2.2.insert r.2.2 else acc.2.2
      ensureCategoryTags ora (r.1, acc.2.1 ++ r.2.1, desired) rest
    else ensureCategoryTags ora acc rest

/-- `AtlanClient.update_asset`: guard on an unresolved schema, on the abort
flag and on an empty resolved-value set; write business metadata; re-check the
abort flag; on success sync tags and set the announcement.  Returns the new
state, the issued calls and the success flag. -/
def update_asset (ora : Oracle) (st : EngineState) (guid : String)
    (summary : RiskSummary) (now : String)
    (type_name asset_name qualified_name : String) :
    EngineState × List RCall × Bool :=
  match st.cm with
  | none => (st, [], false)
  | some cm =>
    if _should_abort st.consecutive403 then (st, [], false)
    else
      let bm_values := bmValues st.attrNames summary now
      if bm_values.isEmpty then (st, [], false)
      else
        let o := ora (RCall.writeBM guid cm bm_values)
        let st1 := { st with consecutive403 := stepCounter st.consecutive403 o }
        let calls0 := [RCall.writeBM guid cm bm_values]
        if _should_abort st1.consecutive403 then (st1, calls0, false)
        else if isSuccess o then
          let r1 := ensure_rollup_tag ora st1 summary
          let desired0 : List String := if r1.2.2 ≠ "" then ([] : List String).insert r1.2.2 else []
          let r2 :=
            if summary.total > 0 then
              ensureCategoryTags ora (r1.1, [], desired0) summary.categories
            else (r1.1, [], desired0)
          let r3 := _sync_tags_on_asset ora r2.1 guid r2.2.2
          let r4 := _set_announcement ora r3.1 guid summary now
            type_name asset_name qualified_name
          (r4.1, calls0 ++ r1.2.1 ++ r2.2.1 ++ r3.2 ++ r4.2, true)
        else (st1, calls0, false)

/-! ### Business-metadata definition management (atlan_service.py
lines 278-359): the decision structure of `ensure_metadata_def`. -/

/-- One attribute definition of a live business-metadata typedef;
`applicableEntityTypes` and `isArchived` model
`options.get("applicableEntityTypes")` / `options.get("isArchived")`,
with `""` / `"false"` for absent fields. -/
structure BMAttrDef where
  name : String
  displayName : String
  applicableEntityTypes : String
  isArchived : String
deriving DecidableEq, Repr

/-- A live business-metadata typedef. -/
structure BMDef where
  name : String
  displayName : String
  attributeDefs : List BMAttrDef
deriving DecidableEq, Repr

/-- `AtlanClient._bm_has_entity_types`: false when there are no attributes,
else every attribute must carry a non-empty `applicableEntityTypes`. -/
def _bm_has_entity_types (bm : BMDef) : Bool :=
  match bm.attributeDefs with
  | [] => false
  | attrs => attrs.all (fun a => !(a.applicableEntityTypes == ""))

/-- The `needs_update` test of `_ensure_entity_types_include`: some attribute's
`applicableEntityTypes` string lacks the substring `"DataDomain"`. -/
def entityTypesPatchNeeded (bm : BMDef) : Bool :=
  bm.attributeDefs.any (fun a => !(strContains a.applicableEntityTypes "DataDomain"))

/-- Python dict lookup where the dict was filled by successive assignment
(the last write to a key wins). -/
def dictGet (entries : List (String × String)) (k : String) : Option String :=
  ((entries.reverse).find? (fun kv => kv.1 == k)).map (fun kv => kv.2)

/-- `AtlanClient._resolve_attr_names`: map simple keys to hashed names by
display-name matching, skipping archived or unnamed attributes. -/
def _resolve_attr_names (bm : BMDef) : List (String × String) :=
  let entries := bm.attributeDefs.filterMap (fun a =>
    if a.displayName ≠ "" ∧ a.name ≠ "" ∧ lowerStr a.isArchived ≠ "true"
    then some (a.displayName, a.name) else none)
  ATTR_DEFS.filterMap (fun kd => (dictGet entries kd.2).map (fun h => (kd.1, h)))

/-- The remote operations `ensure_metadata_def` can perform, abstracted. -/
inductive SchemaOp
  | resolveAttrs
  | addMissingAttrs (missing : List String)
  | patchEntityTypes
  | updateOptions
  | deleteDef (name : String)
  | createDef
deriving DecidableEq, Repr

/-- The operation plan of `AtlanClient.ensure_metadata_def` given the typedef
search result: keep-and-maintain when `_bm_has_entity_types` holds (resolve
names, append missing attributes, patch entity types only when `DataDomain`
is missing somewhere, refresh logo/overview options), else delete and
recreate; create from scratch when nothing was found. -/
def ensure_metadata_def (existing : Option BMDef) : List SchemaOp :=
  match existing with
  | some bm =>
    if _bm_has_entity_types bm then
      let resolved := _resolve_attr_names bm
      let missing := REQUIRED_ATTRS.filter (fun k => (lookupAssoc resolved k).isNone)
      SchemaOp.resolveAttrs ::
        ((if !missing.isEmpty then [SchemaOp.addMissingAttrs missing] else []) ++
          (if entityTypesPatchNeeded bm then [SchemaOp.patchEntityTypes] else []) ++
          [SchemaOp.updateOptions])
    else [SchemaOp.deleteDef bm.name, SchemaOp.createDef]
  | none => [SchemaOp.createDef]

/-- The full required entity-type set, from the claim's wording (tables,
views, databases, schemas, domain entities) — specification-side device. -/
def REQUIRED_ENTITY_TYPES : List String :=
  ["Table", "View", "Database", "Schema", "DataDomain"]

/-- Specification-side: is the found definition applicable to every required
entity type (on every attribute)? -/
def applicableToAllRequired (bm : BMDef) : Bool :=
  bm.attributeDefs.all (fun a =>
    REQUIRED_ENTITY_TYPES.all (fun t => strContains a.applicableEntityTypes t))

/-! ## Helper lemmas -/

theorem mem_current_tlx_of (registry cls : List String) (t : String) :
    t ∈ current_tlx_of registry cls ↔ t ∈ cls ∧ t ∈ registry := by
  simp [current_tlx_of, List.mem_dedup, List.mem_filter]

theorem mem_setDiff (a b : List String) (t : String) :
    t ∈ setDiff a b ↔ t ∈ a ∧ t ∉ b := by
  simp [setDiff, List.mem_filter]

theorem sync_trace_eq (ora : Oracle) (st : EngineState) (guid : String)
    (desired : List String) :
    (_sync_tags_on_asset ora st guid desired).2 =
      RCall.getEntity guid ::
        ((setDiff (syncCurrent ora st guid) desired).map
            (fun t => RCall.removeClassification guid t) ++
          (if (setDiff desired (syncCurrent ora st guid)).isEmpty then []
           else [RCall.addClassifications guid (setDiff desired (syncCurrent ora st guid))])) := by
  simp only [_sync_tags_on_asset]
  split <;> simp_all

theorem sync_preserves_sets (ora : Oracle) (st : EngineState) (guid : String)
    (desired : List String) :
    (_sync_tags_on_asset ora st guid desired).1.tlxTagNames = st.tlxTagNames ∧
    (_sync_tags_on_asset ora st guid desired).1.createdTags = st.createdTags := by
  simp only [_sync_tags_on_asset]
  split <;> simp

/-! ## Claim C1 -/

/-- Claim C1: `_sync_tags_on_asset` never issues a removal call for a tag
absent from the TLX tag registry (`_tlx_tag_names`) — for every oracle (hence
every current classification list), every asset and every desired tag set,
each `removeClassification` call in its trace names a registry member. -/
theorem tlx_sync_removals_within_registry (ora : Oracle) (st : EngineState)
    (guid : String) (desired : List String) (g t : String)
    (h : RCall.removeClassification g t ∈ (_sync_tags_on_asset ora st guid desired).2) :
    t ∈ st.tlxTagNames := by
  rw [sync_trace_eq] at h
  simp only [List.mem_cons, List.mem_append, List.mem_map] at h
  rcases h with h | ⟨x, hx, hEq⟩ | h
  · exact absurd h (by simp)
  · obtain ⟨rfl, rfl⟩ : guid = g ∧ x = t := by
      injection hEq with h1 h2; exact ⟨h1, h2⟩
    rw [mem_setDiff] at hx
    exact ((mem_current_tlx_of _ _ _).1 hx.1).2
  · split at h <;> simp_all

/-- Witness for C1 at a concrete oracle, state and desired set under which a
removal call is actually issued. -/
theorem tlx_sync_removals_within_registry_witness :
    "TLX_OLD" ∈ ["TLX_OLD"] :=
  tlx_sync_removals_within_registry
    (fun c => match c with
      | RCall.getEntity _ => CallOutcome.success (RData.entity ["TLX_OLD"])
      | _ => CallOutcome.success RData.ok)
    ⟨none, [], [], ["TLX_OLD"], 0, []⟩ "g" [] "g" "TLX_OLD" (by decide)

/-! ## Claim C2 -/

theorem fold403_counter (calls : List (List Nat)) :
    ∀ c : Nat, (∀ rs ∈ calls, requestLoop _MAX_RETRIES rs = ReqRes.got403) →
      calls.foldl (fun a rs => (_request a rs).1) c = c + calls.length := by
  induction calls with
  | nil => intro c _; simp
  | cons rs t ih =>
    intro c h
    have h0 : requestLoop _MAX_RETRIES rs = ReqRes.got403 := h rs (by simp)
    have hstep : (_request c rs).1 = c + 1 := by simp [_request, h0]
    simp only [List.foldl_cons, List.length_cons]
    rw [hstep, ih (c + 1) (fun x hx => h x (by simp [hx]))]
    omega

theorem foldNoSuccess_counter (calls : List (List Nat)) :
    ∀ c : Nat, 3 ≤ c → (∀ rs ∈ calls, requestLoop _MAX_RETRIES rs ≠ ReqRes.gotSuccess) →
      3 ≤ calls.foldl (fun a rs => (_request a rs).1) c := by
  induction calls with
  | nil => intro c hc _; simpa using hc
  | cons rs t ih =>
    intro c hc h
    simp only [List.foldl_cons]
    refine ih _ ?_ (fun x hx => h x (by simp [hx]))
    have h0 : requestLoop _MAX_RETRIES rs ≠ ReqRes.gotSuccess := h rs (by simp)
    unfold _request
    cases hr : requestLoop _MAX_RETRIES rs
    · simp_all; omega
    · simp_all
    · simp_all

/-- Claim C2: `_ABORT_THRESHOLD` is 3; after three consecutive 403 responses
`_should_abort` holds; it keeps holding across any further requests none of
which succeeds; a successful (necessarily non-403) request resets the counter
to 0; and with the abort flag set at entry `update_asset` returns failure with
an empty call trace. -/
theorem consecutive_403_abort :
    _ABORT_THRESHOLD = 3
  ∧ (∀ (c : Nat) (calls : List (List Nat)), 3 ≤ calls.length →
      (∀ rs ∈ calls, requestLoop _MAX_RETRIES rs = ReqRes.got403) →
      _should_abort (calls.foldl (fun a rs => (_request a rs).1) c) = true)
  ∧ (∀ (c : Nat) (calls : List (List Nat)), _should_abort c = true →
      (∀ rs ∈ calls, requestLoop _MAX_RETRIES rs ≠ ReqRes.gotSuccess) →
      _should_abort (calls.foldl (fun a rs => (_request a rs).1) c) = true)
  ∧ (∀ (c : Nat) (rs : List Nat), requestLoop _MAX_RETRIES rs = ReqRes.gotSuccess →
      (_request c rs).1 = 0)
  ∧ (∀ (ora : Oracle) (st : EngineState) (guid : String) (summary : RiskSummary)
      (now type_name asset_name qualified_name : String),
      _should_abort st.consecutive403 = true →
      update_asset ora st guid summary now type_name asset_name qualified_name =
        (st, [], false)) := by
  refine ⟨rfl, ?_, ?_, ?_, ?_⟩
  · intro c calls hlen hall
    rw [fold403_counter calls c hall]
    simp only [_should_abort, _ABORT_THRESHOLD, decide_eq_true_eq]
    omega
  · intro c calls hc hall
    have h3 : 3 ≤ c := by simpa [_should_abort, _ABORT_THRESHOLD] using hc
    have := foldNoSuccess_counter calls c h3 hall
    simpa [_should_abort, _ABORT_THRESHOLD]
  · intro c rs h
    simp [_request, h]
  · intro ora st guid summary now tn an qn h
    cases hcm : st.cm <;> simp [update_asset, hcm, h]

/-- Witness for C2: three straight 403s trip the abort flag from a clean
counter; a success resets; an aborted engine performs no `update_asset` work. -/
theorem consecutive_403_abort_witness :
    _should_abort (([[403], [403], [403]] : List (List Nat)).foldl
        (fun a rs => (_request a rs).1) 0) = true
  ∧ (_request 7 [200]).1 = 0
  ∧ update_asset (fun _ => CallOutcome.success RData.ok)
      ⟨some "cm", [("total_risks", "h1")], [], [], 3, []⟩ "g" ⟨0, 0, 0, 0, []⟩
      "now" "Table" "n" "qn" =
      (⟨some "cm", [("total_risks", "h1")], [], [], 3, []⟩, [], false) :=
  ⟨consecutive_403_abort.2.1 0 [[403], [403], [403]] (by decide) (by decide),
   consecutive_403_abort.2.2.2.1 7 [200] (by decide),
   consecutive_403_abort.2.2.2.2 _ _ "g" _ "now" "Table" "n" "qn" (by decide)⟩

/-! ## Claim C3 -/

theorem setDiff_eq_nil (a b : List String) (h : ∀ t ∈ a, t ∈ b) : setDiff a b = [] := by
  simp only [setDiff, List.filter_eq_nil_iff, decide_eq_true_eq]
  intro t ht
  simp [h t ht]

theorem current_after_sync (R cls D : List String) (hD : ∀ t ∈ D, t ∈ R) (t : String) :
    t ∈ current_tlx_of R (afterSync R cls D) ↔ t ∈ D := by
  have := hD t
  simp only [afterSync, mem_current_tlx_of, List.mem_append, List.mem_filter,
    mem_setDiff, decide_eq_true_eq]
  tauto

theorem sync_no_mut_of_diffs_empty (ora : Oracle) (st : EngineState) (guid : String)
    (desired : List String)
    (h1 : setDiff (syncCurrent ora st guid) desired = [])
    (h2 : setDiff desired (syncCurrent ora st guid) = []) :
    ((_sync_tags_on_asset ora st guid desired).2).filter isMutating = [] := by
  rw [sync_trace_eq, h1, h2]
  simp [isMutating]

/-- Claim C3 (amended): when the desired set lies inside the TLX tag registry
and the catalog applied the first invocation's removals and additions, a second
`_sync_tags_on_asset` with the same asset and desired set issues no mutating
call (it still issues the one classification-read call); in particular whenever
both computed diffs are empty, no removal or addition call is made. -/
theorem sync_second_pass_no_mutations :
    (∀ (ora₁ ora₂ : Oracle) (st : EngineState) (guid : String)
        (desired cls : List String),
      (∀ t ∈ desired, t ∈ st.tlxTagNames) →
      ora₁ (RCall.getEntity guid) = CallOutcome.success (RData.entity cls) →
      ora₂ (RCall.getEntity guid) =
        CallOutcome.success (RData.entity (afterSync st.tlxTagNames cls desired)) →
      ((_sync_tags_on_asset ora₂ ((_sync_tags_on_asset ora₁ st guid desired).1)
          guid desired).2).filter isMutating = [])
  ∧ (∀ (ora : Oracle) (st : EngineState) (guid : String) (desired : List String),
      setDiff (syncCurrent ora st guid) desired = [] →
      setDiff desired (syncCurrent ora st guid) = [] →
      ((_sync_tags_on_asset ora st guid desired).2).filter isMutating = []) := by
  refine ⟨?_, fun ora st guid desired h1 h2 =>
    sync_no_mut_of_diffs_empty ora st guid desired h1 h2⟩
  intro ora₁ ora₂ st guid desired cls hD _ h2
  have hpres := (sync_preserves_sets ora₁ st guid desired).1
  have hcur : syncCurrent ora₂ ((_sync_tags_on_asset ora₁ st guid desired).1) guid
      = current_tlx_of st.tlxTagNames (afterSync st.tlxTagNames cls desired) := by
    simp [syncCurrent, h2, hpres, readClassifications]
  apply sync_no_mut_of_diffs_empty
  · apply setDiff_eq_nil
    intro t ht
    rw [hcur] at ht
    exact (current_after_sync _ _ _ hD t).1 ht
  · apply setDiff_eq_nil
    intro t ht
    rw [hcur]
    exact (current_after_sync _ _ _ hD t).2 ht

/-- Claim C3 counterexample: with identical state and desired set and both
computed diffs empty, the second invocation still issues a remote call (the
classification read) — its trace is not empty, refuting "zero remote calls on
the second invocation" and "no calls when both sets are empty". -/
theorem sync_second_pass_still_calls :
    (_sync_tags_on_asset (fun _ => CallOutcome.success (RData.entity []))
      ((_sync_tags_on_asset (fun _ => CallOutcome.success (RData.entity []))
          ⟨none, [], [], [], 0, []⟩ "g" []).1) "g" []).2 ≠ [] := by decide

/-- Witness for C3 at a concrete registry, asset state and oracle pair. -/
theorem sync_second_pass_no_mutations_witness :
    ((_sync_tags_on_asset
        (fun c => match c with
          | RCall.getEntity _ => CallOutcome.success (RData.entity ["TLX_A"])
          | _ => CallOutcome.success RData.ok)
        ((_sync_tags_on_asset
            (fun c => match c with
              | RCall.getEntity _ => CallOutcome.success (RData.entity [])
              | _ => CallOutcome.success RData.ok)
            ⟨none, [], [], ["TLX_A"], 0, []⟩ "g" ["TLX_A"]).1)
        "g" ["TLX_A"]).2).filter isMutating = [] :=
  sync_second_pass_no_mutations.1 _ _ _ "g" ["TLX_A"] []
    (by decide) (by decide) (by decide)

/-! ## Claim C4 -/

/-- Claim C4: `ensure_rollup_tag` is `ensure_dynamic_tag` at the category
`rollupCategory` selects, and that selection picks exactly one of the three
summary tags, mutually exclusively: high > 0 selects the high-risk tag, else
total > 0 selects the risks-detected tag, else the verified tag (the three
names being pairwise distinct). -/
theorem rollup_tag_exclusive :
    (∀ (ora : Oracle) (st : EngineState) (summary : RiskSummary),
        ensure_rollup_tag ora st summary =
          ensure_dynamic_tag ora st (rollupCategory summary))
  ∧ (∀ summary : RiskSummary, 0 < summary.high →
        rollupCategory summary = "TrustLogix High Risk")
  ∧ (∀ summary : RiskSummary, summary.high = 0 → 0 < summary.total →
        rollupCategory summary = "TrustLogix Risks Detected")
  ∧ (∀ summary : RiskSummary, summary.high = 0 → summary.total = 0 →
        rollupCategory summary = "TrustLogix Data Access Governance Verified")
  ∧ (("TrustLogix High Risk" : String) ≠ "TrustLogix Risks Detected"
      ∧ ("TrustLogix High Risk" : String) ≠ "TrustLogix Data Access Governance Verified"
      ∧ ("TrustLogix Risks Detected" : String) ≠ "TrustLogix Data Access Governance Verified") := by
  refine ⟨?_, ?_, ?_, ?_, by decide, by decide, by decide⟩
  · intro ora st summary
    unfold ensure_rollup_tag rollupCategory
    by_cases h1 : summary.high > 0 <;> by_cases h2 : summary.total > 0 <;> simp [h1, h2]
  · intro s h
    simp [rollupCategory, h]
  · intro s h1 h2
    simp [rollupCategory, h1, h2]
  · intro s h1 h2
    simp [rollupCategory, h1, h2]

/-- Witness for C4 on the three summary shapes. -/
theorem rollup_tag_exclusive_witness :
    rollupCategory ⟨5, 2, 2, 1, []⟩ = "TrustLogix High Risk"
  ∧ rollupCategory ⟨3, 0, 2, 1, []⟩ = "TrustLogix Risks Detected"
  ∧ rollupCategory ⟨0, 0, 0, 0, []⟩ = "TrustLogix Data Access Governance Verified" :=
  ⟨rollup_tag_exclusive.2.1 _ (by decide),
   rollup_tag_exclusive.2.2.1 _ (by decide) (by decide),
   rollup_tag_exclusive.2.2.2.1 _ (by decide) (by decide)⟩

/-! ## Claim C6 -/

theorem bmValues_keys_resolved (attrNames : List (String × String))
    (summary : RiskSummary) (now : String) :
    ∀ hv ∈ bmValues attrNames summary now, ∃ k, lookupAssoc attrNames k = some hv.1 := by
  intro hv h
  simp only [bmValues, List.mem_filterMap] at h
  obtain ⟨kv, _, hmap⟩ := h
  rw [Option.map_eq_some'] at hmap
  obtain ⟨hashed, hl, heq⟩ := hmap
  subst heq
  exact ⟨kv.1, hl⟩

/-- Claim C6: `update_asset` is a no-op returning failure — with an empty call
trace — whenever the schema internal name was never resolved, or the abort
flag is set at entry, or no attribute resolved to an internal identifier;
otherwise its first call writes exactly the resolved business-metadata values,
every one of which is keyed by some attribute's resolved internal identifier. -/
theorem update_asset_noop_guards :
    (∀ (ora : Oracle) (st : EngineState) (guid : String) (summary : RiskSummary)
        (now type_name asset_name qualified_name : String), st.cm = none →
        update_asset ora st guid summary now type_name asset_name qualified_name =
          (st, [], false))
  ∧ (∀ (ora : Oracle) (st : EngineState) (guid : String) (summary : RiskSummary)
        (now type_name asset_name qualified_name : String),
        _should_abort st.consecutive403 = true →
        update_asset ora st guid summary now type_name asset_name qualified_name =
          (st, [], false))
  ∧ (∀ (ora : Oracle) (st : EngineState) (guid : String) (summary : RiskSummary)
        (now type_name asset_name qualified_name : String),
        bmValues st.attrNames summary now = [] →
        update_asset ora st guid summary now type_name asset_name qualified_name =
          (st, [], false))
  ∧ (∀ (ora : Oracle) (st : EngineState) (guid : String) (summary : RiskSummary)
        (now type_name asset_name qualified_name cm : String), st.cm = some cm →
        _should_abort st.consecutive403 = false →
        bmValues st.attrNames summary now ≠ [] →
        (∃ rest, (update_asset ora st guid summary now type_name asset_name
            qualified_name).2.1 =
          RCall.writeBM guid cm (bmValues st.attrNames summary now) :: rest)
        ∧ ∀ hv ∈ bmValues st.attrNames summary now,
            ∃ k, lookupAssoc st.attrNames k = some hv.1) := by
  refine ⟨?_, ?_, ?_, ?_⟩
  · intro ora st guid summary now tn an qn hcm
    simp [update_asset, hcm]
  · intro ora st guid summary now tn an qn h
    cases hcm : st.cm <;> simp [update_asset, hcm, h]
  · intro ora st guid summary now tn an qn h
    cases hcm : st.cm
    · simp [update_asset, hcm]
    · by_cases ha : _should_abort st.consecutive403 <;> simp [update_asset, hcm, ha, h]
  · intro ora st guid summary now tn an qn cm hcm hab hne
    refine ⟨?_, bmValues_keys_resolved st.attrNames summary now⟩
    have hie : (bmValues st.attrNames summary now).isEmpty = false := by
      cases hbv : bmValues st.attrNames summary now
      · exact absurd hbv hne
      · rfl
    simp only [update_asset, hcm, hab, Bool.false_eq_true, if_false, hie]
    split
    · exact ⟨_, rfl⟩
    · split
      · exact ⟨_, rfl⟩
      · exact ⟨_, rfl⟩

/-- Witness for C6: a state with a resolved schema, clear abort flag and one
resolved attribute leads with the business-metadata write call. -/
theorem update_asset_noop_guards_witness :
    (∃ rest, (update_asset (fun _ => CallOutcome.success RData.ok)
        ⟨some "cmhash", [("total_risks", "h1")], [], [], 0, []⟩ "g" ⟨0, 0, 0, 0, []⟩
        "now" "Table" "n" "qn").2.1 =
      RCall.writeBM "g" "cmhash"
        (bmValues [("total_risks", "h1")] ⟨0, 0, 0, 0, []⟩ "now") :: rest)
    ∧ ∀ hv ∈ bmValues [("total_risks", "h1")] ⟨0, 0, 0, 0, []⟩ "now",
        ∃ k, lookupAssoc [("total_risks", "h1")] k = some hv.1 :=
  update_asset_noop_guards.2.2.2 (fun _ => CallOutcome.success RData.ok)
    ⟨some "cmhash", [("total_risks", "h1")], [], [], 0, []⟩ "g" ⟨0, 0, 0, 0, []⟩
    "now" "Table" "n" "qn" "cmhash" rfl (by decide) (by decide)

/-! ## Claim C7 -/

theorem resolveLoop_all_none (m : List (String × String × String)) :
    ∀ guids : List String, (∀ g ∈ guids, lookupGuid m g = none) →
      resolveLoop m guids = "Unassigned" := by
  intro guids
  induction guids with
  | nil => intro _; rfl
  | cons g t ih =>
    intro h
    simp only [resolveLoop]
    rw [h g (by simp)]
    exact ih (fun x hx => h x (by simp [hx]))

theorem resolveLoop_first (m : List (String × String × String)) (g : String)
    (rest : List String) (name qn : String) (hg : lookupGuid m g = some (name, qn)) :
    ∀ pre : List String, (∀ x ∈ pre, lookupGuid m x = none) →
      resolveLoop m (pre ++ g :: rest) = name := by
  intro pre
  induction pre with
  | nil =>
    intro _
    simp only [List.nil_append, resolveLoop, hg]
  | cons p t ih =>
    intro h
    simp only [List.cons_append, resolveLoop]
    rw [h p (by simp)]
    exact ih (fun x hx => h x (by simp [hx]))

/-- Claim C7 (amended): `_resolve_domain_from_guids` returns "Unassigned" on an
empty GUID list or when no given GUID is in the index; otherwise it returns the
display name of the first GUID **in the argument list** that the index
contains (not the entry appearing first in the index). -/
theorem resolve_domain_first_in_list :
    (∀ m, _resolve_domain_from_guids m [] = "Unassigned")
  ∧ (∀ m (guids : List String), (∀ g ∈ guids, lookupGuid m g = none) →
      _resolve_domain_from_guids m guids = "Unassigned")
  ∧ (∀ m (pre : List String) (g : String) (rest : List String) (name qn : String),
      (∀ x ∈ pre, lookupGuid m x = none) →
      lookupGuid m g = some (name, qn) →
      _resolve_domain_from_guids m (pre ++ g :: rest) = name) := by
  refine ⟨fun m => rfl, ?_, ?_⟩
  · intro m guids h
    cases guids with
    | nil => rfl
    | cons x t =>
      simp only [_resolve_domain_from_guids, List.isEmpty_cons, if_false,
        Bool.false_eq_true]
      exact resolveLoop_all_none m (x :: t) h
  · intro m pre g rest name qn hpre hg
    have hne : (pre ++ g :: rest).isEmpty = false := by
      cases pre <;> rfl
    simp only [_resolve_domain_from_guids, hne, Bool.false_eq_true, if_false]
    exact resolveLoop_first m g rest name qn hg pre hpre

/-- Claim C7 counterexample: with the index holding guid-b before guid-a and
the asset carrying [guid-a, guid-b], the code returns guid-a's name (first in
the argument list) while the claim's index-order reading predicts guid-b's. -/
theorem resolve_domain_not_index_order :
    _resolve_domain_from_guids [("gb", "B", "qb"), ("ga", "A", "qa")] ["ga", "gb"] = "A"
  ∧ resolveDomainSpecIndexOrder [("gb", "B", "qb"), ("ga", "A", "qa")] ["ga", "gb"] = "B"
  ∧ ("A" : String) ≠ "B" :=
  ⟨rfl, rfl, by decide⟩

/-- Witness for C7 on a concrete index and GUID lists. -/
theorem resolve_domain_first_in_list_witness :
    _resolve_domain_from_guids [("g1", "D1", "q1")] [] = "Unassigned"
  ∧ _resolve_domain_from_guids [("g1", "D1", "q1")] ["gX"] = "Unassigned"
  ∧ _resolve_domain_from_guids [("g1", "D1", "q1")] ["g0", "g1", "g2"] = "D1" :=
  ⟨resolve_domain_first_in_list.1 _,
   resolve_domain_first_in_list.2.1 _ ["gX"] (by decide),
   resolve_domain_first_in_list.2.2 _ ["g0"] "g1" ["g2"] "D1" "q1"
     (by decide) (by decide)⟩

/-! ## Claim C8 -/

/-- A concrete existing definition applicable only to tables (and, vacuously
for the patch check, to domain entities on no attribute). -/
def bmTableOnly : BMDef :=
  ⟨"bm1", "TrustLogix Governance", [⟨"h1", "Total Risks", "[\"Table\"]", "false"⟩]⟩

/-- Claim C8 (amended): `ensure_metadata_def` deletes and recreates a found
definition exactly when `_bm_has_entity_types` fails — some attribute has no
`applicableEntityTypes` (or there are no attributes); whenever every attribute
carries a non-empty entity-type list the definition is kept, and the
entity-type scope is patched in place precisely when some attribute's list
lacks `DataDomain`. -/
theorem ensure_metadata_def_policy :
    (∀ bm : BMDef, _bm_has_entity_types bm = false →
        ensure_metadata_def (some bm) = [SchemaOp.deleteDef bm.name, SchemaOp.createDef])
  ∧ (∀ bm : BMDef, _bm_has_entity_types bm = true →
        (SchemaOp.createDef ∉ ensure_metadata_def (some bm)
        ∧ (∀ n, SchemaOp.deleteDef n ∉ ensure_metadata_def (some bm))
        ∧ (SchemaOp.patchEntityTypes ∈ ensure_metadata_def (some bm) ↔
            entityTypesPatchNeeded bm = true))) := by
  constructor
  · intro bm h
    simp [ensure_metadata_def, h]
  · intro bm h
    by_cases hm : (REQUIRED_ATTRS.filter
        (fun k => (lookupAssoc (_resolve_attr_names bm) k).isNone)).isEmpty <;>
      by_cases hp : entityTypesPatchNeeded bm <;>
      simp [ensure_metadata_def, h, hm, hp]

/-- Claim C8 counterexample: a definition applicable only to tables is not
applicable to all required entity types, yet the engine keeps it and patches
the attribute options in place instead of deleting and recreating it. -/
theorem ensure_metadata_def_patches_in_place :
    applicableToAllRequired bmTableOnly = false
  ∧ ensure_metadata_def (some bmTableOnly) =
      [SchemaOp.resolveAttrs,
       SchemaOp.addMissingAttrs ["high_severity", "medium_severity", "low_severity",
         "risk_categories", "last_scanned", "scan_status", "risk_details"],
       SchemaOp.patchEntityTypes, SchemaOp.updateOptions] :=
  ⟨by decide, by decide⟩

/-- Witness for C8: a definition with an attribute lacking entity types is
deleted and recreated; `bmTableOnly` is patched in place. -/
theorem ensure_metadata_def_policy_witness :
    ensure_metadata_def (some ⟨"bm0", "TrustLogix Governance",
        [⟨"h1", "Total Risks", "", "false"⟩]⟩) =
      [SchemaOp.deleteDef "bm0", SchemaOp.createDef]
  ∧ SchemaOp.patchEntityTypes ∈ ensure_metadata_def (some bmTableOnly) :=
  ⟨ensure_metadata_def_policy.1 _ (by decide),
   (ensure_metadata_def_policy.2 bmTableOnly (by decide)).2.2.mpr (by decide)⟩

/-! ## Claim C9 -/

theorem insert_subset_insert_str {a b : List String} (nm : String) (h : a ⊆ b) :
    a.insert nm ⊆ b.insert nm := by
  intro x hx
  rw [List.mem_insert_iff] at hx ⊢
  rcases hx with rfl | hx
  · exact Or.inl rfl
  · exact Or.inr (h hx)

theorem registerTag_props (nm : String) (st0 : EngineState)
    (h : st0.createdTags ⊆ st0.tlxTagNames) :
    nm ∈ (registerTag nm st0).createdTags ∧ nm ∈ (registerTag nm st0).tlxTagNames
    ∧ (registerTag nm st0).createdTags ⊆ (registerTag nm st0).tlxTagNames := by
  refine ⟨by simp [registerTag, List.mem_insert_iff],
    by simp [registerTag, List.mem_insert_iff], ?_⟩
  simp only [registerTag]
  exact insert_subset_insert_str nm h

/-- Claim C9: `ensure_dynamic_tag` always returns a tag identifier that is,
after the call, a member of both the created-tags set and the TLX tag registry
(assuming the class invariant that every cached created tag is registered,
which every insertion site maintains); and when the remote lookup and the
creation call both fail, the locally derived `_make_tag_id` identifier is
returned and registered anyway. -/
theorem ensure_dynamic_tag_registers :
    (∀ (ora : Oracle) (st : EngineState) (cat : String),
        st.createdTags ⊆ st.tlxTagNames →
        ((ensure_dynamic_tag ora st cat).2.2 ∈ (ensure_dynamic_tag ora st cat).1.createdTags
        ∧ (ensure_dynamic_tag ora st cat).2.2 ∈ (ensure_dynamic_tag ora st cat).1.tlxTagNames
        ∧ (ensure_dynamic_tag ora st cat).1.createdTags ⊆
            (ensure_dynamic_tag ora st cat).1.tlxTagNames))
  ∧ (∀ (ora : Oracle) (st : EngineState) (cat : String),
        _make_tag_id cat ∉ st.createdTags →
        ora (RCall.getTypedefs "classification") = CallOutcome.failOther →
        (∀ color, ora (RCall.createTagDef (_make_tag_id cat) cat color) =
          CallOutcome.failOther) →
        ((ensure_dynamic_tag ora st cat).2.2 = _make_tag_id cat
        ∧ _make_tag_id cat ∈ (ensure_dynamic_tag ora st cat).1.createdTags
        ∧ _make_tag_id cat ∈ (ensure_dynamic_tag ora st cat).1.tlxTagNames)) := by
  constructor
  · intro ora st cat hsub
    unfold ensure_dynamic_tag
    by_cases hc : _make_tag_id cat ∈ st.createdTags
    · rw [if_pos hc]
      exact ⟨hc, hsub hc, hsub⟩
    · simp only [hc, if_false]
      cases hf : foundTagName (ora (RCall.getTypedefs "classification"))
          (_make_tag_id cat) cat <;> simp only [hf]
      · exact registerTag_props _ _ hsub
      · exact registerTag_props _ _ hsub
  · intro ora st cat hc hget hpost
    unfold ensure_dynamic_tag
    rw [hget]
    simp only [hc, if_false, foundTagName]
    rw [hpost _]
    simp [createdName, registerTag, List.mem_insert_iff]

/-- Witness for C9 with an oracle on which every remote call fails. -/
theorem ensure_dynamic_tag_registers_witness :
    (ensure_dynamic_tag (fun _ => CallOutcome.failOther)
        ⟨none, [], [], [], 0, []⟩ "Data Breach").2.2 = _make_tag_id "Data Breach"
  ∧ _make_tag_id "Data Breach" ∈ (ensure_dynamic_tag (fun _ => CallOutcome.failOther)
        ⟨none, [], [], [], 0, []⟩ "Data Breach").1.createdTags
  ∧ _make_tag_id "Data Breach" ∈ (ensure_dynamic_tag (fun _ => CallOutcome.failOther)
        ⟨none, [], [], [], 0, []⟩ "Data Breach").1.tlxTagNames :=
  ensure_dynamic_tag_registers.2 (fun _ => CallOutcome.failOther)
    ⟨none, [], [], [], 0, []⟩ "Data Breach" (by decide) rfl (fun _ => rfl)

/-! ## Claim C10 -/

theorem summarize_fold_fields (l : List RiskFinding) :
    ∀ s : RiskSummary,
      (l.foldl sumStep s).total = s.total
    ∧ (l.foldl sumStep s).high =
        s.high + (l.filter (fun r => sevIsHigh r.severity)).length
    ∧ (l.foldl sumStep s).medium =
        s.medium + (l.filter (fun r => !sevIsHigh r.severity && sevIsMedium r.severity)).length
    ∧ (l.foldl sumStep s).low =
        s.low + (l.filter (fun r => !sevIsHigh r.severity && !sevIsMedium r.severity)).length := by
  induction l with
  | nil => intro s; simp
  | cons r t ih =>
    intro s
    simp only [List.foldl_cons, List.filter_cons]
    cases hh : sevIsHigh r.severity <;> cases hm : sevIsMedium r.severity <;>
      simp only [sumStep, hh, hm, Bool.not_true, Bool.not_false, Bool.false_and,
        Bool.true_and, Bool.and_self, if_true, if_false, Bool.true_eq_false,
        Bool.false_eq_true, List.length_cons] <;>
      refine ⟨(ih _).1, ?_, ?_, ?_⟩ <;>
      simp [(ih _).2.1, (ih _).2.2.1, (ih _).2.2.2] <;> omega

theorem filter_partition3 (l : List RiskFinding) :
    l.length = (l.filter (fun r => sevIsHigh r.severity)).length
      + (l.filter (fun r => !sevIsHigh r.severity && sevIsMedium r.severity)).length
      + (l.filter (fun r => !sevIsHigh r.severity && !sevIsMedium r.severity)).length := by
  induction l with
  | nil => simp
  | cons r t ih =>
    cases hh : sevIsHigh r.severity <;> cases hm : sevIsMedium r.severity <;>
      simp [List.filter_cons, hh, hm, ih] <;> omega

/-- Claim C10: `_summarize` satisfies total = number of findings =
high + medium + low, each finding landing in exactly one bucket: severities
containing "HIGH" or "CRITICAL" count as high, else those containing "MEDIUM"
as medium, and everything else as low. -/
theorem summarize_partition_counts (risks : List RiskFinding) :
    (_summarize risks).total = risks.length
  ∧ (_summarize risks).total =
      (_summarize risks).high + (_summarize risks).medium + (_summarize risks).low
  ∧ (_summarize risks).high = (risks.filter (fun r => sevIsHigh r.severity)).length
  ∧ (_summarize risks).medium =
      (risks.filter (fun r => !sevIsHigh r.severity && sevIsMedium r.severity)).length
  ∧ (_summarize risks).low =
      (risks.filter (fun r => !sevIsHigh r.severity && !sevIsMedium r.severity)).length := by
  obtain ⟨h1, h2, h3, h4⟩ := summarize_fold_fields risks ⟨risks.length, 0, 0, 0, []⟩
  unfold _summarize
  rw [h1, h2, h3, h4]
  refine ⟨rfl, ?_, by simp, by simp, by simp⟩
  simpa using filter_partition3 risks

/-! ## Claim C5

The pipeline `sub → strip → upper` of `_make_tag_id` is characterised by the
case-folded alphanumeric runs of the input: the identifier is `TLX_` followed
by the upper-cased runs joined with single underscores. -/

theorem underscore_not_alnum : ('_').isAlphanum = false := by decide

theorem alnum_beq_underscore_false {c : Char} (hc : c.isAlphanum = true) :
    (c == '_') = false := by
  cases h : (c == '_') with
  | false => rfl
  | true =>
    have := eq_of_beq h
    subst this
    rw [underscore_not_alnum] at hc
    cases hc

theorem collapseNA_cons_alnum (b : Bool) (c : Char) (rest : List Char)
    (hc : c.isAlphanum = true) :
    collapseNA b (c :: rest) = c :: collapseNA false rest := by
  simp [collapseNA, hc]

theorem collapseNA_true_cons_nonalnum (c : Char) (rest : List Char)
    (hc : c.isAlphanum = false) :
    collapseNA true (c :: rest) = collapseNA true rest := by
  simp [collapseNA, hc]

theorem collapseNA_false_cons_nonalnum (c : Char) (rest : List Char)
    (hc : c.isAlphanum = false) :
    collapseNA false (c :: rest) = '_' :: collapseNA true rest := by
  simp [collapseNA, hc]

theorem collapseNA_true_head_alnum :
    ∀ (s : List Char) (c : Char) (t : List Char),
      collapseNA true s = c :: t → c.isAlphanum = true := by
  intro s
  induction s with
  | nil =>
    intro c t h
    simp [collapseNA] at h
  | cons x xs ih =>
    intro c t h
    by_cases hx : x.isAlphanum = true
    · rw [collapseNA_cons_alnum true x xs hx] at h
      cases h
      exact hx
    · rw [collapseNA_true_cons_nonalnum x xs (by simpa using hx)] at h
      exact ih c t h

theorem dropWhile_head_false (p : Char → Bool) :
    ∀ (l : List Char) (c : Char) (t : List Char), l.dropWhile p = c :: t → p c = false := by
  intro l
  induction l with
  | nil =>
    intro c t h
    simp at h
  | cons x xs ih =>
    intro c t h
    by_cases hx : p x = true
    · rw [List.dropWhile_cons_of_pos hx] at h
      exact ih c t h
    · rw [List.dropWhile_cons_of_neg hx] at h
      cases h
      simpa using hx

theorem stripR_all_alnum (l : List Char) (h : ∀ c ∈ l, c.isAlphanum = true) :
    stripR l = l := by
  unfold stripR
  cases hrev : l.reverse with
  | nil =>
    simp only [hrev, List.dropWhile_nil, List.reverse_nil]
    exact (List.reverse_eq_nil_iff.mp hrev).symm
  | cons c t =>
    have hc : c ∈ l := by
      have : c ∈ l.reverse := by
        rw [hrev]
        simp
      simpa using this
    rw [List.dropWhile_cons_of_neg (by simp [alnum_beq_underscore_false (h c hc)]),
      ← hrev, List.reverse_reverse]

theorem stripR_append_underscore (A : List Char) : stripR (A ++ ['_']) = stripR A := by
  unfold stripR
  rw [List.reverse_append]
  simp [List.dropWhile_cons]

theorem dropWhile_append_of_ne_nil (p : Char → Bool) :
    ∀ (l₁ l₂ : List Char), l₁.dropWhile p ≠ [] →
      (l₁ ++ l₂).dropWhile p = l₁.dropWhile p ++ l₂ := by
  intro l₁
  induction l₁ with
  | nil =>
    intro l₂ h
    exact absurd rfl h
  | cons x xs ih =>
    intro l₂ h
    by_cases hx : p x = true
    · rw [List.dropWhile_cons_of_pos hx] at h
      rw [List.cons_append, List.dropWhile_cons_of_pos hx, List.dropWhile_cons_of_pos hx]
      exact ih l₂ h
    · rw [List.cons_append, List.dropWhile_cons_of_neg hx, List.dropWhile_cons_of_neg hx,
        List.cons_append]

theorem stripR_append_of_ne_nil (A X : List Char) (h : stripR X ≠ []) :
    stripR (A ++ X) = A ++ stripR X := by
  have hX : X.reverse.dropWhile (· == '_') ≠ [] := by
    intro hnil
    apply h
    unfold stripR
    rw [hnil]
    rfl
  unfold stripR
  rw [List.reverse_append, dropWhile_append_of_ne_nil _ _ _ hX, List.reverse_append,
    List.reverse_reverse]

theorem stripL_cons_underscore (l : List Char) : stripL ('_' :: l) = stripL l := by
  simp [stripL, List.dropWhile_cons]

theorem stripL_collapse_true (s : List Char) :
    stripL (collapseNA true s) = collapseNA true s := by
  cases h : collapseNA true s with
  | nil => rfl
  | cons c t =>
    have hc := collapseNA_true_head_alnum s c t h
    unfold stripL
    rw [List.dropWhile_cons_of_neg (by simp [alnum_beq_underscore_false hc])]

theorem alnumRuns_cons (c : Char) (rest : List Char) :
    alnumRuns (c :: rest) =
      (if c.isAlphanum then
        match rest.head? with
        | some d =>
          if d.isAlphanum then
            match alnumRuns rest with
            | r :: tl => (c :: r) :: tl
            | [] => [[c]]
          else [c] :: alnumRuns rest
        | none => [[c]]
      else alnumRuns rest) := rfl

theorem alnumRuns_cons_nonalnum (c : Char) (rest : List Char) (hc : c.isAlphanum = false) :
    alnumRuns (c :: rest) = alnumRuns rest := by
  rw [alnumRuns_cons, hc]
  rfl

theorem alnumRuns_cons_alnum_ne_nil (c : Char) (rest : List Char)
    (hc : c.isAlphanum = true) : alnumRuns (c :: rest) ≠ [] := by
  rw [alnumRuns_cons]
  cases hh : rest.head? with
  | none => simp [hc]
  | some d =>
    by_cases hd : d.isAlphanum = true
    · cases hr : alnumRuns rest <;> simp [hc, hd, hr]
    · simp [hc, hd]

theorem nil_not_mem_alnumRuns : ∀ l : List Char, [] ∉ alnumRuns l := by
  intro l
  induction l with
  | nil => simp [alnumRuns]
  | cons c rest ih =>
    by_cases hc : c.isAlphanum = true
    · rw [alnumRuns_cons]
      cases hh : rest.head? with
      | none => simp [hc]
      | some d =>
        by_cases hd : d.isAlphanum = true
        · cases hr : alnumRuns rest with
          | nil => simp [hc, hd, hr]
          | cons r tl =>
            simp only [hc, hd, hr, if_true]
            intro hmem
            rcases List.mem_cons.mp hmem with h0 | h0
            · exact List.cons_ne_nil c r h0.symm
            · exact ih (by rw [hr]; exact List.mem_cons_of_mem r h0)
        · simp only [hc, hd, if_true, Bool.false_eq_true, if_false]
          intro hmem
          rcases List.mem_cons.mp hmem with h0 | h0
          · exact List.cons_ne_nil c [] h0.symm
          · exact ih h0
    · rw [alnumRuns_cons_nonalnum c rest (by simpa using hc)]
      exact ih

theorem collapse_true_of_runs_nil : ∀ l : List Char, alnumRuns l = [] →
    collapseNA true l = [] := by
  intro l
  induction l with
  | nil => intro _; rfl
  | cons c rest ih =>
    intro h
    by_cases hc : c.isAlphanum = true
    · exact absurd h (alnumRuns_cons_alnum_ne_nil c rest hc)
    · rw [collapseNA_true_cons_nonalnum c rest (by simpa using hc)]
      exact ih (by rwa [alnumRuns_cons_nonalnum c rest (by simpa using hc)] at h)

theorem joinUnders_single (r : List Char) : joinUnders [r] = r := rfl

theorem joinUnders_cons_cons (r q : List Char) (qs : List (List Char)) :
    joinUnders (r :: q :: qs) = r ++ '_' :: joinUnders (q :: qs) := rfl

theorem joinUnders_head_cons (c : Char) (r : List Char) (tl : List (List Char)) :
    joinUnders ((c :: r) :: tl) = c :: joinUnders (r :: tl) := by
  cases tl <;> rfl

theorem joinUnders_ne_nil (q : List Char) (qs : List (List Char)) (hq : q ≠ []) :
    joinUnders (q :: qs) ≠ [] := by
  cases qs with
  | nil => simpa using hq
  | cons a b => simp [joinUnders_cons_cons]

theorem alnumRuns_cons_alnum_cons_nonalnum (c d : Char) (t : List Char)
    (hc : c.isAlphanum = true) (hd : d.isAlphanum = false) :
    alnumRuns (c :: d :: t) = [c] :: alnumRuns (d :: t) := by
  rw [alnumRuns_cons]
  simp [hc, hd]

theorem alnumRuns_cons_alnum_cons_alnum (c d : Char) (t : List Char)
    (hc : c.isAlphanum = true) (hd : d.isAlphanum = true)
    (r : List Char) (tl : List (List Char)) (hr : alnumRuns (d :: t) = r :: tl) :
    alnumRuns (c :: d :: t) = (c :: r) :: tl := by
  rw [alnumRuns_cons]
  simp [hc, hd, hr]

theorem stripR_collapse_true : ∀ s : List Char,
    stripR (collapseNA true s) = joinUnders (alnumRuns s) := by
  intro s
  induction s with
  | nil => rfl
  | cons c rest ih =>
    by_cases hc : c.isAlphanum = true
    · rw [collapseNA_cons_alnum true c rest hc]
      cases rest with
      | nil =>
        have h2 : alnumRuns [c] = [[c]] := by
          rw [alnumRuns_cons]
          simp [hc]
        rw [h2, joinUnders_single]
        exact stripR_all_alnum [c]
          (by intro x hx; rw [List.mem_singleton] at hx; subst hx; exact hc)
      | cons d t =>
        by_cases hd : d.isAlphanum = true
        · have hcf : collapseNA false (d :: t) = collapseNA true (d :: t) := by
            rw [collapseNA_cons_alnum false d t hd, collapseNA_cons_alnum true d t hd]
          rw [hcf]
          obtain ⟨r, tl, hr⟩ : ∃ r tl, alnumRuns (d :: t) = r :: tl := by
            cases h0 : alnumRuns (d :: t) with
            | nil => exact absurd h0 (alnumRuns_cons_alnum_ne_nil d t hd)
            | cons r tl => exact ⟨r, tl, rfl⟩
          rw [alnumRuns_cons_alnum_cons_alnum c d t hc hd r tl hr,
            joinUnders_head_cons, ← hr, ← ih]
          have hne : stripR (collapseNA true (d :: t)) ≠ [] := by
            rw [ih, hr]
            refine joinUnders_ne_nil r tl (fun h0 => ?_)
            exact nil_not_mem_alnumRuns (d :: t) (by rw [hr, ← h0]; exact List.mem_cons_self _ _)
          exact stripR_append_of_ne_nil [c] _ hne
        · have hd' : d.isAlphanum = false := by simpa using hd
          rw [collapseNA_false_cons_nonalnum d t hd',
            alnumRuns_cons_alnum_cons_nonalnum c d t hc hd',
            alnumRuns_cons_nonalnum d t hd']
          have ih' : stripR (collapseNA true t) = joinUnders (alnumRuns t) := by
            rw [collapseNA_true_cons_nonalnum d t hd', alnumRuns_cons_nonalnum d t hd'] at ih
            exact ih
          cases hq : alnumRuns t with
          | nil =>
            rw [collapse_true_of_runs_nil t hq, joinUnders_single]
            have h1 : stripR (c :: '_' :: ([] : List Char)) = stripR [c] :=
              stripR_append_underscore [c]
            rw [h1]
            exact stripR_all_alnum [c]
              (by intro x hx; rw [List.mem_singleton] at hx; subst hx; exact hc)
          | cons q qs =>
            have hne : stripR (collapseNA true t) ≠ [] := by
              rw [ih', hq]
              refine joinUnders_ne_nil q qs (fun h0 => ?_)
              exact nil_not_mem_alnumRuns t (by rw [hq, ← h0]; exact List.mem_cons_self _ _)
            have h1 : stripR ('_' :: collapseNA true t) =
                '_' :: stripR (collapseNA true t) :=
              stripR_append_of_ne_nil ['_'] _ hne
            have h2 : stripR (c :: '_' :: collapseNA true t) =
                c :: stripR ('_' :: collapseNA true t) := by
              refine stripR_append_of_ne_nil [c] _ ?_
              rw [h1]
              simp
            rw [h2, h1, ih', hq, joinUnders_cons_cons]
            rfl
    · have hc' : c.isAlphanum = false := by simpa using hc
      rw [collapseNA_true_cons_nonalnum c rest hc', alnumRuns_cons_nonalnum c rest hc']
      exact ih

theorem map_toUpper_joinUnders : ∀ rs : List (List Char),
    (joinUnders rs).map Char.toUpper = joinUnders (rs.map (List.map Char.toUpper)) := by
  intro rs
  induction rs with
  | nil => rfl
  | cons r tl ih =>
    cases tl with
    | nil => rfl
    | cons q qs =>
      rw [joinUnders_cons_cons, List.map_cons, List.map_cons, List.map_append]
      rw [List.map_cons] at ih ⊢
      rw [joinUnders_cons_cons, ih]
      rfl

theorem tagIdChars_canonical (s : List Char) :
    tagIdChars s = "TLX_".toList ++ joinUnders ((alnumRuns s).map (List.map Char.toUpper)) := by
  unfold tagIdChars
  rw [← map_toUpper_joinUnders]
  congr 1
  cases s with
  | nil => rfl
  | cons c rest =>
    by_cases hc : c.isAlphanum = true
    · have hcf : collapseNA false (c :: rest) = collapseNA true (c :: rest) := by
        rw [collapseNA_cons_alnum false c rest hc, collapseNA_cons_alnum true c rest hc]
      rw [hcf]
      unfold stripAll
      rw [stripL_collapse_true]
      exact congrArg _ (stripR_collapse_true (c :: rest))
    · have hc' : c.isAlphanum = false := by simpa using hc
      rw [collapseNA_false_cons_nonalnum c rest hc']
      unfold stripAll
      rw [stripL_cons_underscore, stripL_collapse_true,
        alnumRuns_cons_nonalnum c rest hc']
      exact congrArg _ (stripR_collapse_true rest)

/-- Claim C5 (amended): `_make_tag_id` is deterministic and normalizing —
`_make_tag_id "PII - Exposure!" = _make_tag_id "pii exposure"` — and two
category names derive equal identifiers whenever their case-folded maximal
alphanumeric runs agree, i.e. whenever they differ only in case, in the
punctuation used inside each separator, and in leading or trailing
punctuation (but not by inserting or deleting a separator outright). -/
theorem make_tag_id_normalizing :
    _make_tag_id "PII - Exposure!" = _make_tag_id "pii exposure"
  ∧ ∀ s t : String, foldedRuns s = foldedRuns t → _make_tag_id s = _make_tag_id t := by
  refine ⟨by decide, ?_⟩
  intro s t h
  unfold _make_tag_id
  have hs := tagIdChars_canonical s.toList
  have ht := tagIdChars_canonical t.toList
  unfold foldedRuns at h
  rw [hs, ht, h]

/-- Claim C5 counterexample: `"PII Exposure"` and `"PIIExposure"` differ only
by punctuation (erasing non-alphanumeric characters and case-folding makes
them identical) yet derive different tag identifiers, so identifier equality
does not hold for all pairs differing only by case or punctuation. -/
theorem make_tag_id_not_punct_blind :
    stripPunctFold "PII Exposure" = stripPunctFold "PIIExposure"
  ∧ _make_tag_id "PII Exposure" ≠ _make_tag_id "PIIExposure" :=
  ⟨by decide, by decide⟩

/-- Witness for C5 on two names with equal folded runs. -/
theorem make_tag_id_normalizing_witness :
    _make_tag_id "Data Breach" = _make_tag_id "data-breach!" :=
  make_tag_id_normalizing.2 "Data Breach" "data-breach!" (by decide)
